import Mathlib

/-!
Verification of the product API core of the `build-an-authenticated-api-with-cdk`
repository: the AppSync Lambda dispatcher (`exports.handler`), the `checkForGroup`
authorization guard, and the six operation handlers (`getProductById`,
`createProduct`, `listProducts`, `deleteProduct`, `updateProduct`,
`productsByCategory`) over a DynamoDB table keyed by `id` with a
`productsByCategory` secondary index keyed by `category`.

Items are modelled as attribute maps (association lists of attribute name to
value, mirroring JavaScript objects, whose own keys are iterated in insertion
order by `Object.keys`).  The DynamoDB store is external to the repository; it
is modelled from the spec's Entity Store Adapter contract as a list of items
with `put` / `get` / `scan` / `query` / `update` / `delete` primitives.  Each
handler performs exactly one store call wrapped in try/catch; a `fail` flag
models whether that single store call throws, and the store calls a dispatch
makes are recorded in a trace so that "no store call occurs" is provable.
-/

namespace CdkProducts

/-- An attribute value of a JavaScript object: a string or a number
(`Product` carries string fields plus numeric `price` and `inventory`). -/
inductive Val where
  | str : String → Val
  | num : Int → Val
deriving DecidableEq, Repr

/-- A JavaScript object as an association list of own properties, in
insertion order (the order `Object.keys` iterates). -/
abbrev AttrMap := List (String × Val)

/-- Property read `m[k]`: the value of the first entry with key `k`,
`none` when the key is absent (JavaScript `undefined`). -/
def lookupAttr (m : AttrMap) (k : String) : Option Val :=
  match m with
  | [] => none
  | (k', v) :: rest => if k' = k then some v else lookupAttr rest k

/-- Whether the object has own property `k`. -/
def hasKey (m : AttrMap) (k : String) : Bool :=
  match m with
  | [] => false
  | (k', _) :: rest => if k' = k then true else hasKey rest k

/-- Property write `m[k] = v`: replaces the value of an existing key in
place, otherwise appends the new property (JavaScript assignment). -/
def setAttr (m : AttrMap) (k : String) (v : Val) : AttrMap :=
  if hasKey m k then m.map (fun p => if p.1 = k then (k, v) else p)
  else m ++ [(k, v)]

/-- Applies a merge-patch: sets each patch attribute in order, leaving
attributes outside the patch untouched (DynamoDB `SET a = :a, b = :b ...`). -/
def applyPatch (m : AttrMap) (patch : AttrMap) : AttrMap :=
  patch.foldl (fun acc p => setAttr acc p.1 p.2) m

/-- Whether an item's `id` attribute equals the given key value. -/
def keyMatches (it : AttrMap) (kid : Option Val) : Bool :=
  decide (lookupAttr it "id" = kid)

/-- Modelled from the spec: the backing DynamoDB table (the Entity Store),
a collection of items keyed by the `id` attribute, with a secondary access
path by `category`.  Order of items is store-defined and unspecified. -/
abbrev Store := List AttrMap

/-- Modelled from the spec: `getByKey` — primary key lookup by `id`
(DynamoDB `get`); returns the item or `none`. -/
def getByKey (st : Store) (id : String) : Option AttrMap :=
  st.find? (fun it => keyMatches it (some (Val.str id)))

/-- Modelled from the spec: `put(item)` — unconditional put; overwrites any
existing item with the same `id`. -/
def putItem (st : Store) (item : AttrMap) : Store :=
  (st.filter (fun it => ! keyMatches it (lookupAttr item "id"))) ++ [item]

/-- Modelled from the spec: `deleteByKey(id)` — removes the item with the
given primary key if present; absence of the item is not an error. -/
def deleteByKey (st : Store) (id : String) : Store :=
  st.filter (fun it => ! keyMatches it (some (Val.str id)))

/-- Modelled from the spec: `scanAll()` — every item in the collection. -/
def scanAll (st : Store) : List AttrMap := st

/-- Modelled from the spec: `queryBySecondaryKey` on the `productsByCategory`
index — every item whose `category` attribute equals the argument. -/
def queryByCategory (st : Store) (category : String) : List AttrMap :=
  st.filter (fun it => decide (lookupAttr it "category" = some (Val.str category)))

/-- Modelled from the spec: `update(id, patch)` — sets each patch attribute
on the item with the given key, leaving omitted attributes untouched; an
empty patch degenerates to a no-op update.  When no item has the key,
DynamoDB `update` upserts an item holding the key and the patch. -/
def updateItem (st : Store) (kid : Option Val) (patch : AttrMap) : Store :=
  if st.any (fun it => keyMatches it kid) then
    st.map (fun it => if keyMatches it kid then applyPatch it patch else it)
  else
    st ++ [applyPatch (match kid with | some v => [("id", v)] | none => []) patch]

/-- JavaScript truth test `!product.id`: true when the property is absent,
the empty string, or the number zero (the falsy values `Val` can carry). -/
def idFalsy (m : AttrMap) : Bool :=
  match lookupAttr m "id" with
  | none => true
  | some (Val.str s) => decide (s = "")
  | some (Val.num n) => decide (n = 0)

/-- A handler's resolved value: a single item, a list of items, a string
(`deleteProduct` returns the id), or null/undefined. -/
inductive RVal where
  | obj : AttrMap → RVal
  | list : List AttrMap → RVal
  | str : String → RVal
  | nullv : RVal
deriving DecidableEq, Repr

/-- One call issued to the Entity Store Adapter (recorded whether or not
that call then fails). -/
inductive StoreCall where
  | put : AttrMap → StoreCall
  | get : String → StoreCall
  | scan : StoreCall
  | query : String → String → StoreCall
  | upd : Option Val → AttrMap → StoreCall
  | del : String → StoreCall
deriving DecidableEq, Repr

/-- A handler's outcome: resolved value, resulting store, trace of store
calls made. -/
abbrev HandlerOut := RVal × Store × List StoreCall

/-- `getProductById(productId)` from `getProductById.ts`: one `get` by
primary key; returns the item (`Item` is `undefined` when not found); on a
DynamoDB error the catch block only logs, so the function resolves with
`undefined`. -/
def getProductById (st : Store) (fail : Bool) (productId : String) : HandlerOut :=
  (if fail then RVal.nullv
   else match getByKey st productId with
        | some item => RVal.obj item
        | none => RVal.nullv,
   st, [StoreCall.get productId])

/-- `createProduct(product)` from `createProduct.ts`: when `!product.id`,
assigns `product.id = uuid()` (the uuid library is external; the freshly
generated token is passed in as `freshId`); then one unconditional `put` of
the full object; returns the (possibly mutated) product, or `null` on a
DynamoDB error. -/
def createProduct (st : Store) (fail : Bool) (freshId : String) (product : AttrMap) :
    HandlerOut :=
  let product' := if idFalsy product then setAttr product "id" (Val.str freshId)
                  else product
  if fail then (RVal.nullv, st, [StoreCall.put product'])
  else (RVal.obj product', putItem st product', [StoreCall.put product'])

/-- `listProducts()` from `listProducts.ts`: one `scan`; returns all items,
or `null` on a DynamoDB error. -/
def listProducts (st : Store) (fail : Bool) : HandlerOut :=
  (if fail then RVal.nullv else RVal.list (scanAll st), st, [StoreCall.scan])

/-- `productsByCategory(category)` from `productsByCategory.ts`: one `query`
on the `productsByCategory` index with `category = :category`; returns the
matching items, or `null` on a DynamoDB error. -/
def productsByCategory (st : Store) (fail : Bool) (category : String) : HandlerOut :=
  (if fail then RVal.nullv else RVal.list (queryByCategory st category),
   st, [StoreCall.query "productsByCategory" category])

/-- `deleteProduct(productId)` from `deleteProduct.ts`: one `delete` by
primary key; returns the given `productId`, or `null` on a DynamoDB error. -/
def deleteProduct (st : Store) (fail : Bool) (productId : String) : HandlerOut :=
  if fail then (RVal.nullv, st, [StoreCall.del productId])
  else (RVal.str productId, deleteByKey st productId, [StoreCall.del productId])

/-- `updateProduct(product)` from `updateProduct.ts`: builds an update
expression over `Object.keys(product)` skipping `"id"`, keyed by
`product.id`; one `update` call; returns the caller-supplied `product`
itself, or `null` on a DynamoDB error. -/
def updateProduct (st : Store) (fail : Bool) (product : AttrMap) : HandlerOut :=
  let patch := product.filter (fun p => ! decide (p.1 = "id"))
  let kid := lookupAttr product "id"
  if fail then (RVal.nullv, st, [StoreCall.upd kid patch])
  else (RVal.obj product, updateItem st kid patch, [StoreCall.upd kid patch])

/-- The `identity` field of an AppSync event: username plus a claims object
mapping claim keys to lists of group names. -/
structure Identity where
  username : String
  claims : List (String × List String)
deriving DecidableEq, Repr

/-- The `info` field of an AppSync event. -/
structure Info where
  fieldName : String
deriving DecidableEq, Repr

/-- The `arguments` field of an AppSync event. -/
structure Arguments where
  productId : String
  category : String
  product : AttrMap
deriving DecidableEq, Repr

/-- The AppSync operation event consumed by `exports.handler`; `identity`
is absent for anonymous (API-key) callers. -/
structure AppSyncEvent where
  info : Info
  arguments : Arguments
  identity : Option Identity
deriving DecidableEq, Repr

/-- Claim read `claims[k]`: the list under the first entry with key `k`,
`none` when the key is absent. -/
def lookupClaim (claims : List (String × List String)) (k : String) :
    Option (List String) :=
  match claims with
  | [] => none
  | (k', v) :: rest => if k' = k then some v else lookupClaim rest k

/-- `checkForGroup(event, groupName)` from the dispatcher module: true iff
the event has an identity, its claims carry the `cognito:groups` key, and
that list includes `groupName` (exact string comparison). -/
def checkForGroup (event : AppSyncEvent) (groupName : String) : Bool :=
  match event.identity with
  | some ident =>
    match lookupClaim ident.claims "cognito:groups" with
    | some groups =>
      if groups.contains groupName then true else false
    | none => false
  | none => false

/-- What a dispatch resolves to: a value, or a thrown `Error(message)`. -/
inductive DResult where
  | ok : RVal → DResult
  | error : String → DResult
deriving DecidableEq, Repr

/-- The outcome of one dispatch: result or thrown error, resulting store,
and the trace of store calls made. -/
structure DispatchOut where
  result : DResult
  store : Store
  calls : List StoreCall
deriving DecidableEq, Repr

/-- `exports.handler` from `main.ts` (the dispatcher): switches on
`event.info.fieldName`; the three mutations first run
`checkForGroup(event, "Admin")` and throw `Error('unauthorized')` when it
fails; unrecognized names return `null`. -/
def handler (st : Store) (fail : Bool) (freshId : String) (event : AppSyncEvent) :
    DispatchOut :=
  let fn := event.info.fieldName
  if fn = "getProductById" then
    let (r, st', cs) := getProductById st fail event.arguments.productId
    ⟨DResult.ok r, st', cs⟩
  else if fn = "createProduct" then
    if checkForGroup event "Admin" then
      let (r, st', cs) := createProduct st fail freshId event.arguments.product
      ⟨DResult.ok r, st', cs⟩
    else ⟨DResult.error "unauthorized", st, []⟩
  else if fn = "listProducts" then
    let (r, st', cs) := listProducts st fail
    ⟨DResult.ok r, st', cs⟩
  else if fn = "deleteProduct" then
    if checkForGroup event "Admin" then
      let (r, st', cs) := deleteProduct st fail event.arguments.productId
      ⟨DResult.ok r, st', cs⟩
    else ⟨DResult.error "unauthorized", st, []⟩
  else if fn = "updateProduct" then
    if checkForGroup event "Admin" then
      let (r, st', cs) := updateProduct st fail event.arguments.product
      ⟨DResult.ok r, st', cs⟩
    else ⟨DResult.error "unauthorized", st, []⟩
  else if fn = "productsByCategory" then
    let (r, st', cs) := productsByCategory st fail event.arguments.category
    ⟨DResult.ok r, st', cs⟩
  else ⟨DResult.ok RVal.nullv, st, []⟩

/-- The three operation names guarded by the Admin check. -/
def mutationOps : List String := ["createProduct", "updateProduct", "deleteProduct"]

/-- The three unguarded read operation names. -/
def readOps : List String := ["getProductById", "listProducts", "productsByCategory"]

/-! ### Helper lemmas about attribute maps and the store model -/

theorem lookupAttr_append (m l : AttrMap) (k : String) :
    lookupAttr (m ++ l) k =
      match lookupAttr m k with
      | some v => some v
      | none => lookupAttr l k := by
  induction m with
  | nil => rfl
  | cons p rest ih =>
    obtain ⟨k1, v1⟩ := p
    by_cases h1 : k1 = k
    · simp [lookupAttr, h1]
    · simp [lookupAttr, h1, ih]

theorem lookupAttr_eq_none_of_hasKey_false (m : AttrMap) (k : String)
    (h : hasKey m k = false) : lookupAttr m k = none := by
  induction m with
  | nil => rfl
  | cons p rest ih =>
    obtain ⟨k1, v1⟩ := p
    by_cases h1 : k1 = k
    · simp [hasKey, h1] at h
    · have h' : hasKey rest k = false := by simpa [hasKey, h1] using h
      simp [lookupAttr, h1, ih h']

theorem lookupAttr_map_set_self (m : AttrMap) (k : String) (v : Val)
    (h : hasKey m k = true) :
    lookupAttr (m.map (fun p => if p.1 = k then (k, v) else p)) k = some v := by
  induction m with
  | nil => simp [hasKey] at h
  | cons p rest ih =>
    obtain ⟨k1, v1⟩ := p
    simp only [List.map_cons]
    by_cases h1 : k1 = k
    · subst h1
      rw [if_pos rfl]
      simp [lookupAttr]
    · rw [if_neg h1]
      have h' : hasKey rest k = true := by simpa [hasKey, h1] using h
      simp [lookupAttr, h1, ih h']

theorem lookupAttr_map_set_other (m : AttrMap) (k k' : String) (v : Val)
    (h : k' ≠ k) :
    lookupAttr (m.map (fun p => if p.1 = k then (k, v) else p)) k'
      = lookupAttr m k' := by
  induction m with
  | nil => rfl
  | cons p rest ih =>
    obtain ⟨k1, v1⟩ := p
    simp only [List.map_cons]
    by_cases h1 : k1 = k
    · subst h1
      rw [if_pos rfl]
      have h2 : ¬ k1 = k' := fun hk => h (hk.symm)
      simp [lookupAttr, h2, ih]
    · rw [if_neg h1]
      by_cases h2 : k1 = k'
      · simp [lookupAttr, h2]
      · simp [lookupAttr, h2, ih]

theorem lookupAttr_setAttr_self (m : AttrMap) (k : String) (v : Val) :
    lookupAttr (setAttr m k v) k = some v := by
  unfold setAttr
  by_cases h : hasKey m k = true
  · rw [if_pos h]
    exact lookupAttr_map_set_self m k v h
  · rw [if_neg h]
    rw [lookupAttr_append]
    have h0 : hasKey m k = false := by simpa using h
    rw [lookupAttr_eq_none_of_hasKey_false m k h0]
    simp [lookupAttr]

theorem lookupAttr_setAttr_other (m : AttrMap) (k k' : String) (v : Val)
    (h : k' ≠ k) : lookupAttr (setAttr m k v) k' = lookupAttr m k' := by
  unfold setAttr
  by_cases hm : hasKey m k = true
  · rw [if_pos hm]
    exact lookupAttr_map_set_other m k k' v h
  · rw [if_neg hm]
    rw [lookupAttr_append]
    have h2 : ¬ k = k' := fun hk => h hk.symm
    cases hl : lookupAttr m k' with
    | some w => rfl
    | none => simp [lookupAttr, h2]

theorem lookupAttr_eq_none_of_not_mem_keys (m : AttrMap) (k : String)
    (h : k ∉ m.map Prod.fst) : lookupAttr m k = none := by
  induction m with
  | nil => rfl
  | cons p rest ih =>
    simp only [List.map_cons, List.mem_cons, not_or] at h
    have hp : ¬ p.1 = k := fun hk => h.1 hk.symm
    simp [lookupAttr, hp, ih h.2]

theorem lookupAttr_applyPatch_of_none (m patch : AttrMap) (k : String)
    (h : lookupAttr patch k = none) :
    lookupAttr (applyPatch m patch) k = lookupAttr m k := by
  induction patch generalizing m with
  | nil => rfl
  | cons p rest ih =>
    have hp : ¬ p.1 = k := by
      intro hk
      simp [lookupAttr, hk] at h
    have h' : lookupAttr rest k = none := by
      simpa [lookupAttr, hp] using h
    show lookupAttr (applyPatch (setAttr m p.1 p.2) rest) k = lookupAttr m k
    rw [ih _ h', lookupAttr_setAttr_other _ _ _ _ (fun hk => hp hk.symm)]

theorem lookupAttr_applyPatch_of_some (m patch : AttrMap) (k : String) (v : Val)
    (hnd : (patch.map Prod.fst).Nodup) (h : lookupAttr patch k = some v) :
    lookupAttr (applyPatch m patch) k = some v := by
  induction patch generalizing m with
  | nil => simp [lookupAttr] at h
  | cons p rest ih =>
    simp only [List.map_cons, List.nodup_cons] at hnd
    by_cases hp : p.1 = k
    · have hv : v = p.2 := by
        simp [lookupAttr, hp] at h
        exact h.symm
      have hrest : lookupAttr rest k = none := by
        apply lookupAttr_eq_none_of_not_mem_keys
        rw [← hp]
        exact hnd.1
      show lookupAttr (applyPatch (setAttr m p.1 p.2) rest) k = some v
      rw [lookupAttr_applyPatch_of_none _ _ _ hrest, hp, hv,
        lookupAttr_setAttr_self]
    · have h' : lookupAttr rest k = some v := by
        simpa [lookupAttr, hp] using h
      exact ih _ hnd.2 h'

theorem find?_filter_neg {α : Type} (l : List α) (p : α → Bool) :
    (l.filter (fun x => ! p x)).find? p = none := by
  induction l with
  | nil => rfl
  | cons x rest ih =>
    by_cases hx : p x = true
    · simp [List.filter, hx, ih]
    · simp only [Bool.not_eq_true] at hx
      simp [List.filter, hx, List.find?, ih]

theorem find?_append_of_none {α : Type} (l₁ l₂ : List α) (p : α → Bool)
    (h : l₁.find? p = none) : (l₁ ++ l₂).find? p = l₂.find? p := by
  induction l₁ with
  | nil => rfl
  | cons x rest ih =>
    have hx : ¬ p x = true := by
      intro hp
      simp [List.find?, hp] at h
    have h' : rest.find? p = none := by
      simp only [Bool.not_eq_true] at hx
      simpa [List.find?, hx] using h
    simp only [Bool.not_eq_true] at hx
    simp [List.find?, hx, ih h']

theorem getByKey_putItem_self (st : Store) (item : AttrMap) (s : String)
    (h : lookupAttr item "id" = some (Val.str s)) :
    getByKey (putItem st item) s = some item := by
  unfold getByKey putItem
  rw [h, find?_append_of_none _ _ _ (find?_filter_neg _ _)]
  simp [List.find?, keyMatches, h]

theorem getByKey_deleteByKey_self (st : Store) (id : String) :
    getByKey (deleteByKey st id) id = none := by
  unfold getByKey deleteByKey
  exact find?_filter_neg _ _

theorem deleteByKey_of_absent (st : Store) (id : String)
    (h : getByKey st id = none) : deleteByKey st id = st := by
  unfold getByKey at h
  unfold deleteByKey
  induction st with
  | nil => rfl
  | cons it rest ih =>
    have hx : ¬ keyMatches it (some (Val.str id)) = true := by
      intro hp
      simp [List.find?, hp] at h
    have h' : rest.find? (fun it => keyMatches it (some (Val.str id))) = none := by
      simp only [Bool.not_eq_true] at hx
      simpa [List.find?, hx] using h
    simp only [Bool.not_eq_true] at hx
    simp [List.filter, hx, ih h']

theorem find?_map_of_find? {α : Type} (l : List α) (p : α → Bool) (f : α → α)
    (x : α) (hfind : l.find? p = some x)
    (hpres : ∀ y, p y = true → p (f y) = true)
    (hskip : ∀ y, p y = false → f y = y) :
    (l.map f).find? p = some (f x) := by
  induction l with
  | nil => simp [List.find?] at hfind
  | cons y rest ih =>
    by_cases hy : p y = true
    · have hx : x = y := by
        simp [List.find?, hy] at hfind
        exact hfind.symm
      simp [List.find?, hpres y hy, hx]
    · simp only [Bool.not_eq_true] at hy
      have h' : rest.find? p = some x := by
        simpa [List.find?, hy] using hfind
      simp [List.find?, hskip y hy, hy, ih h']

theorem keyMatches_applyPatch (it patch : AttrMap) (kid : Option Val)
    (h : lookupAttr patch "id" = none) :
    keyMatches (applyPatch it patch) kid = keyMatches it kid := by
  unfold keyMatches
  rw [lookupAttr_applyPatch_of_none _ _ _ h]

theorem getByKey_updateItem (st : Store) (id : String) (item patch : AttrMap)
    (hfound : getByKey st id = some item)
    (hid : lookupAttr patch "id" = none) :
    getByKey (updateItem st (some (Val.str id)) patch) id
      = some (applyPatch item patch) := by
  unfold getByKey at hfound
  have hp0 := List.find?_some hfound
  have hpitem : keyMatches item (some (Val.str id)) = true := hp0
  have hmem : st.any (fun it => keyMatches it (some (Val.str id))) = true := by
    rw [List.any_eq_true]
    exact ⟨item, List.mem_of_find?_eq_some hfound, hp0⟩
  unfold updateItem
  rw [if_pos hmem]
  unfold getByKey
  have hfmap := find?_map_of_find? st (fun it => keyMatches it (some (Val.str id)))
    (fun it => if keyMatches it (some (Val.str id)) then applyPatch it patch else it)
    item hfound
    (fun y hy => by
      show keyMatches
        (if keyMatches y (some (Val.str id)) = true then applyPatch y patch else y)
        (some (Val.str id)) = true
      rw [if_pos hy, keyMatches_applyPatch _ _ _ hid]
      exact hy)
    (fun y hy => by
      show (if keyMatches y (some (Val.str id)) = true then applyPatch y patch else y) = y
      have hy' : keyMatches y (some (Val.str id)) = false := hy
      rw [hy']
      simp)
  simp only [hpitem, if_true] at hfmap
  exact hfmap

theorem lookupAttr_filter_not_id (m : AttrMap) (k : String) (h : k ≠ "id") :
    lookupAttr (m.filter (fun p => ! decide (p.1 = "id"))) k = lookupAttr m k := by
  induction m with
  | nil => rfl
  | cons p rest ih =>
    obtain ⟨k1, v1⟩ := p
    by_cases hp : k1 = "id"
    · subst hp
      simp [List.filter_cons, lookupAttr, Ne.symm h, ih]
    · by_cases hpk : k1 = k
      · subst hpk
        simp [List.filter_cons, hp, lookupAttr]
      · simp [List.filter_cons, hp, lookupAttr, hpk, ih]

theorem lookupAttr_filter_id (m : AttrMap) :
    lookupAttr (m.filter (fun p => ! decide (p.1 = "id"))) "id" = none := by
  induction m with
  | nil => rfl
  | cons p rest ih =>
    obtain ⟨k1, v1⟩ := p
    by_cases hp : k1 = "id"
    · simp [List.filter_cons, hp, ih]
    · simp [List.filter_cons, hp, lookupAttr, ih]

theorem keys_filter_nodup (m : AttrMap) (hnd : (m.map Prod.fst).Nodup) :
    ((m.filter (fun p => ! decide (p.1 = "id"))).map Prod.fst).Nodup := by
  exact hnd.sublist (List.Sublist.map Prod.fst (List.filter_sublist m))

/-! ### Shared lemmas about the guard and the dispatcher -/

theorem checkForGroup_no_identity (event : AppSyncEvent) (gn : String)
    (h : event.identity = none) : checkForGroup event gn = false := by
  simp [checkForGroup, h]

theorem checkForGroup_no_claim (event : AppSyncEvent) (gn : String)
    (ident : Identity) (h : event.identity = some ident)
    (hc : lookupClaim ident.claims "cognito:groups" = none) :
    checkForGroup event gn = false := by
  simp [checkForGroup, h, hc]

theorem checkForGroup_eq_contains (event : AppSyncEvent) (gn : String)
    (ident : Identity) (groups : List String) (h : event.identity = some ident)
    (hc : lookupClaim ident.claims "cognito:groups" = some groups) :
    checkForGroup event gn = groups.contains gn := by
  simp only [checkForGroup, h, hc]
  cases hgc : groups.contains gn <;> simp [hgc]

theorem handler_mutation_unauthorized (st : Store) (fail : Bool) (freshId : String)
    (event : AppSyncEvent) (hm : event.info.fieldName ∈ mutationOps)
    (hc : checkForGroup event "Admin" = false) :
    handler st fail freshId event = ⟨DResult.error "unauthorized", st, []⟩ := by
  simp only [mutationOps, List.mem_cons, List.not_mem_nil, or_false] at hm
  rcases hm with h | h | h <;> simp [handler, h, hc]

/-! ### Claim theorems -/

/-- C2: the authorization guard `checkForGroup(event, groupName)` is a pure
boolean function: it returns `false` when the caller identity is absent,
returns `false` when the identity's claims carry no `cognito:groups`
collection, and returns `true` iff `groupName` occurs in that collection
under exact, case-sensitive string comparison. -/
theorem C2_checkForGroup_guard (event : AppSyncEvent) (groupName : String) :
    (event.identity = none → checkForGroup event groupName = false)
    ∧ (∀ ident, event.identity = some ident →
        lookupClaim ident.claims "cognito:groups" = none →
        checkForGroup event groupName = false)
    ∧ (∀ ident groups, event.identity = some ident →
        lookupClaim ident.claims "cognito:groups" = some groups →
        (checkForGroup event groupName = true ↔ groupName ∈ groups)) := by
  refine ⟨?_, ?_, ?_⟩
  · exact fun h => checkForGroup_no_identity event groupName h
  · exact fun ident h hc => checkForGroup_no_claim event groupName ident h hc
  · intro ident groups h hc
    rw [checkForGroup_eq_contains event groupName ident groups h hc]
    simp

/-- C2 witness: the guard evaluated at concrete events — an anonymous
event is refused, and an identity whose `cognito:groups` claim holds
`Admin` passes for group name `Admin`. -/
theorem C2_checkForGroup_guard_witness :
    checkForGroup ⟨⟨"createProduct"⟩, ⟨"", "", []⟩, none⟩ "Admin" = false
    ∧ (checkForGroup ⟨⟨"createProduct"⟩, ⟨"", "", []⟩,
        some ⟨"u", [("cognito:groups", ["Admin"])]⟩⟩ "Admin" = true
      ↔ "Admin" ∈ ["Admin"]) := by
  constructor
  · exact (C2_checkForGroup_guard ⟨⟨"createProduct"⟩, ⟨"", "", []⟩, none⟩ "Admin").1 rfl
  · exact (C2_checkForGroup_guard ⟨⟨"createProduct"⟩, ⟨"", "", []⟩,
      some ⟨"u", [("cognito:groups", ["Admin"])]⟩⟩ "Admin").2.2
      ⟨"u", [("cognito:groups", ["Admin"])]⟩ ["Admin"] rfl rfl

/-- C5: on success (the store call does not fail), `updateProduct` returns
the caller-supplied input object itself, and there are runs where that
differs from the full post-merge record persisted in the store. -/
theorem C5_update_returns_input :
    (∀ (st : Store) (input : AttrMap),
      (updateProduct st false input).1 = RVal.obj input)
    ∧ (∃ (st : Store) (input merged : AttrMap),
        getByKey (updateProduct st false input).2.1 "1" = some merged
        ∧ merged ≠ input) := by
  constructor
  · intro st input
    rfl
  · refine ⟨[[("id", Val.str "1"), ("name", Val.str "A")]],
      [("id", Val.str "1"), ("price", Val.num 20)],
      [("id", Val.str "1"), ("name", Val.str "A"), ("price", Val.num 20)], ?_, ?_⟩
    · decide
    · decide

/-- C6: `deleteProduct(id)` issues one delete by primary key (after which
no item with that `id` remains), treats absence of the item as success
leaving the store unchanged, and returns the given `id`. -/
theorem C6_delete_idempotent (st : Store) (id : String) :
    deleteProduct st false id = (RVal.str id, deleteByKey st id, [StoreCall.del id])
    ∧ getByKey (deleteByKey st id) id = none
    ∧ (getByKey st id = none →
        deleteProduct st false id = (RVal.str id, st, [StoreCall.del id])) := by
  refine ⟨rfl, getByKey_deleteByKey_self st id, ?_⟩
  intro h
  simp [deleteProduct, deleteByKey_of_absent st id h]

/-- C6 witness: deleting the absent id `missing-id` from an empty store
succeeds and returns `missing-id`. -/
theorem C6_delete_idempotent_witness :
    deleteProduct [] false "missing-id"
      = (RVal.str "missing-id", [], [StoreCall.del "missing-id"]) :=
  (C6_delete_idempotent [] "missing-id").2.2 rfl

/-- C8: dispatching an operation event whose name is none of the six
recognized field names returns a null result without error, leaves the
store unchanged, and makes no store call. -/
theorem C8_unknown_operation_null (st : Store) (fail : Bool) (freshId : String)
    (event : AppSyncEvent)
    (h : event.info.fieldName ∉ ["getProductById", "createProduct", "listProducts",
      "deleteProduct", "updateProduct", "productsByCategory"]) :
    handler st fail freshId event = ⟨DResult.ok RVal.nullv, st, []⟩ := by
  simp only [List.mem_cons, List.not_mem_nil, or_false, not_or] at h
  obtain ⟨h1, h2, h3, h4, h5, h6⟩ := h
  simp [handler, h1, h2, h3, h4, h5, h6]

/-- C8 witness: an event named `somethingElse` dispatches to a null
result with no store call. -/
theorem C8_unknown_operation_null_witness :
    handler [] false "u" ⟨⟨"somethingElse"⟩, ⟨"", "", []⟩, none⟩
      = ⟨DResult.ok RVal.nullv, [], []⟩ :=
  C8_unknown_operation_null [] false "u" ⟨⟨"somethingElse"⟩, ⟨"", "", []⟩, none⟩
    (by decide)

/-- C1: dispatching one of the three mutations without an `Admin` group
claim (in particular with no identity at all) fails with the unauthorized
error, leaves the store unchanged and makes no store call; dispatching one
of the three reads never consults the identity (the outcome is the same
for every identity, present or absent) and never yields the unauthorized
error. -/
theorem C1_authz_gate (st : Store) (fail : Bool) (freshId : String)
    (event : AppSyncEvent) :
    (event.info.fieldName ∈ mutationOps → checkForGroup event "Admin" = false →
      handler st fail freshId event = ⟨DResult.error "unauthorized", st, []⟩)
    ∧ (event.info.fieldName ∈ readOps →
      (∀ ident, handler st fail freshId { event with identity := ident }
        = handler st fail freshId event)
      ∧ ∃ r, (handler st fail freshId event).result = DResult.ok r) := by
  constructor
  · exact fun hm hc => handler_mutation_unauthorized st fail freshId event hm hc
  · intro hr
    simp only [readOps, List.mem_cons, List.not_mem_nil, or_false] at hr
    constructor
    · intro ident
      rcases hr with h | h | h <;> simp [handler, h]
    · rcases hr with h | h | h
      · exact ⟨(getProductById st fail event.arguments.productId).1,
          by simp [handler, h, getProductById]⟩
      · exact ⟨(listProducts st fail).1, by simp [handler, h, listProducts]⟩
      · exact ⟨(productsByCategory st fail event.arguments.category).1,
          by simp [handler, h, productsByCategory]⟩

/-- C1 witness: an anonymous `createProduct` dispatch fails unauthorized
with no store call, and an anonymous `listProducts` dispatch has the same
outcome as one carrying an identity. -/
theorem C1_authz_gate_witness :
    handler [] false "u" ⟨⟨"createProduct"⟩, ⟨"", "", [("name", Val.str "S")]⟩, none⟩
      = ⟨DResult.error "unauthorized", [], []⟩
    ∧ handler [] false "u"
        ⟨⟨"listProducts"⟩, ⟨"", "", []⟩, some ⟨"u", [("cognito:groups", ["Admin"])]⟩⟩
      = handler [] false "u" ⟨⟨"listProducts"⟩, ⟨"", "", []⟩, none⟩ := by
  constructor
  · exact (C1_authz_gate [] false "u"
      ⟨⟨"createProduct"⟩, ⟨"", "", [("name", Val.str "S")]⟩, none⟩).1
      (by decide) (by decide)
  · exact ((C1_authz_gate [] false "u" ⟨⟨"listProducts"⟩, ⟨"", "", []⟩, none⟩).2
      (by decide)).1 (some ⟨"u", [("cognito:groups", ["Admin"])]⟩)

/-- C3: `createProduct` with a falsy `id` (absent or empty) assigns the
freshly generated token as the item's `id` before the put and returns the
persisted object including it; with an explicit non-empty string `id` it
persists that exact object unchanged; and the put is unconditional — it
overwrites any existing item with the same `id`. -/
theorem C3_createProduct_id (st : Store) (product : AttrMap) (freshId : String) :
    (idFalsy product = true →
      createProduct st false freshId product
        = (RVal.obj (setAttr product "id" (Val.str freshId)),
           putItem st (setAttr product "id" (Val.str freshId)),
           [StoreCall.put (setAttr product "id" (Val.str freshId))])
      ∧ lookupAttr (setAttr product "id" (Val.str freshId)) "id"
          = some (Val.str freshId))
    ∧ (∀ s, s ≠ "" → lookupAttr product "id" = some (Val.str s) →
      createProduct st false freshId product
        = (RVal.obj product, putItem st product, [StoreCall.put product]))
    ∧ (∀ item s, lookupAttr item "id" = some (Val.str s) →
      getByKey (putItem st item) s = some item) := by
  refine ⟨?_, ?_, ?_⟩
  · intro h
    exact ⟨by simp [createProduct, h], lookupAttr_setAttr_self product "id" (Val.str freshId)⟩
  · intro s hs hlook
    have hfalsy : idFalsy product = false := by
      simp [idFalsy, hlook, hs]
    simp [createProduct, hfalsy]
  · intro item s hlook
    exact getByKey_putItem_self st item s hlook

/-- C3 witness: creating a product without an `id` persists it under the
generated token `fresh-1`, and creating one with explicit id `p9` over a
store already holding an item with id `p9` overwrites that item. -/
theorem C3_createProduct_id_witness :
    createProduct [] false "fresh-1" [("name", Val.str "Shoe")]
      = (RVal.obj [("name", Val.str "Shoe"), ("id", Val.str "fresh-1")],
         [[("name", Val.str "Shoe"), ("id", Val.str "fresh-1")]],
         [StoreCall.put [("name", Val.str "Shoe"), ("id", Val.str "fresh-1")]])
    ∧ createProduct [[("id", Val.str "p9"), ("name", Val.str "Old")]] false "fresh-2"
        [("id", Val.str "p9"), ("name", Val.str "New")]
      = (RVal.obj [("id", Val.str "p9"), ("name", Val.str "New")],
         [[("id", Val.str "p9"), ("name", Val.str "New")]],
         [StoreCall.put [("id", Val.str "p9"), ("name", Val.str "New")]]) := by
  constructor
  · have h := (C3_createProduct_id [] [("name", Val.str "Shoe")] "fresh-1").1 (by decide)
    simpa using h.1
  · have h := (C3_createProduct_id [[("id", Val.str "p9"), ("name", Val.str "Old")]]
      [("id", Val.str "p9"), ("name", Val.str "New")] "fresh-2").2.1 "p9"
      (by decide) (by decide)
    simpa using h

/-- C4: updating a stored Product with an input carrying its `id` makes
the stored record the attribute-by-attribute merge: every non-id attribute
present on the input is set to the supplied value, every attribute omitted
from the input keeps its prior stored value, and the record's `id` is
unaltered. -/
theorem C4_partial_update (st : Store) (item input : AttrMap) (id : String)
    (hnd : (input.map Prod.fst).Nodup)
    (hfound : getByKey st id = some item)
    (hinputid : lookupAttr input "id" = some (Val.str id)) :
    ∃ merged, getByKey (updateProduct st false input).2.1 id = some merged
      ∧ (∀ k v, k ≠ "id" → lookupAttr input k = some v →
          lookupAttr merged k = some v)
      ∧ (∀ k, k ≠ "id" → lookupAttr input k = none →
          lookupAttr merged k = lookupAttr item k)
      ∧ lookupAttr merged "id" = lookupAttr item "id" := by
  refine ⟨applyPatch item (input.filter (fun p => ! decide (p.1 = "id"))), ?_, ?_, ?_, ?_⟩
  · show getByKey (updateProduct st false input).2.1 id = _
    simp only [updateProduct, if_neg (by simp : ¬ (false = true)), hinputid]
    exact getByKey_updateItem st id item _ hfound (lookupAttr_filter_id input)
  · intro k v hk hsome
    exact lookupAttr_applyPatch_of_some item _ k v (keys_filter_nodup input hnd)
      (by rw [lookupAttr_filter_not_id input k hk]; exact hsome)
  · intro k hk hnone
    exact lookupAttr_applyPatch_of_none item _ k
      (by rw [lookupAttr_filter_not_id input k hk]; exact hnone)
  · exact lookupAttr_applyPatch_of_none item _ "id" (lookupAttr_filter_id input)

/-- C4 witness: in a store holding `{id:"1", name:"A", price:10, category:"x"}`,
updating with `{id:"1", price:20}` yields a stored record whose `price` is
20 while `name`, `category` and `id` are untouched. -/
theorem C4_partial_update_witness :
    ∃ merged,
      getByKey (updateProduct
        [[("id", Val.str "1"), ("name", Val.str "A"), ("price", Val.num 10),
          ("category", Val.str "x")]]
        false [("id", Val.str "1"), ("price", Val.num 20)]).2.1 "1" = some merged
      ∧ (∀ k v, k ≠ "id" →
          lookupAttr [("id", Val.str "1"), ("price", Val.num 20)] k = some v →
          lookupAttr merged k = some v)
      ∧ (∀ k, k ≠ "id" →
          lookupAttr [("id", Val.str "1"), ("price", Val.num 20)] k = none →
          lookupAttr merged k = lookupAttr [("id", Val.str "1"), ("name", Val.str "A"),
            ("price", Val.num 10), ("category", Val.str "x")] k)
      ∧ lookupAttr merged "id" = lookupAttr [("id", Val.str "1"), ("name", Val.str "A"),
          ("price", Val.num 10), ("category", Val.str "x")] "id" :=
  C4_partial_update
    [[("id", Val.str "1"), ("name", Val.str "A"), ("price", Val.num 10),
      ("category", Val.str "x")]]
    [("id", Val.str "1"), ("name", Val.str "A"), ("price", Val.num 10),
      ("category", Val.str "x")]
    [("id", Val.str "1"), ("price", Val.num 20)] "1"
    (by decide) (by decide) (by decide)

/-- C7: with the single store call of a handler failing, each of the six
handlers resolves with a null/absent value instead of a thrown error, and
the only error a dispatch can ever surface is the unauthorized one. -/
theorem C7_store_failures_swallowed (st : Store) (freshId pid cat : String)
    (product : AttrMap) (event : AppSyncEvent) :
    (getProductById st true pid).1 = RVal.nullv
    ∧ (createProduct st true freshId product).1 = RVal.nullv
    ∧ (listProducts st true).1 = RVal.nullv
    ∧ (productsByCategory st true cat).1 = RVal.nullv
    ∧ (deleteProduct st true pid).1 = RVal.nullv
    ∧ (updateProduct st true product).1 = RVal.nullv
    ∧ (∀ (fail : Bool) (msg : String),
        (handler st fail freshId event).result = DResult.error msg →
        msg = "unauthorized") := by
  refine ⟨rfl, rfl, rfl, rfl, rfl, rfl, ?_⟩
  intro fail msg h
  by_cases h1 : event.info.fieldName = "getProductById"
  · simp [handler, h1, getProductById] at h
  by_cases h2 : event.info.fieldName = "createProduct"
  · by_cases hg : checkForGroup event "Admin" = true
    · simp [handler, h1, h2, hg, createProduct] at h
    · have hg' : checkForGroup event "Admin" = false := by simpa using hg
      simp [handler, h1, h2, hg'] at h
      exact h.symm
  by_cases h3 : event.info.fieldName = "listProducts"
  · simp [handler, h1, h2, h3, listProducts] at h
  by_cases h4 : event.info.fieldName = "deleteProduct"
  · by_cases hg : checkForGroup event "Admin" = true
    · simp [handler, h1, h2, h3, h4, hg, deleteProduct] at h
    · have hg' : checkForGroup event "Admin" = false := by simpa using hg
      simp [handler, h1, h2, h3, h4, hg'] at h
      exact h.symm
  by_cases h5 : event.info.fieldName = "updateProduct"
  · by_cases hg : checkForGroup event "Admin" = true
    · simp [handler, h1, h2, h3, h4, h5, hg, updateProduct] at h
    · have hg' : checkForGroup event "Admin" = false := by simpa using hg
      simp [handler, h1, h2, h3, h4, h5, hg'] at h
      exact h.symm
  by_cases h6 : event.info.fieldName = "productsByCategory"
  · simp [handler, h1, h2, h3, h4, h5, h6, productsByCategory] at h
  · simp [handler, h1, h2, h3, h4, h5, h6] at h

/-- C7 witness: a failing primary-key read resolves null, and the error a
rejected anonymous `createProduct` dispatch surfaces is `unauthorized`. -/
theorem C7_store_failures_swallowed_witness :
    (getProductById [] true "p").1 = RVal.nullv
    ∧ "unauthorized" = "unauthorized" := by
  constructor
  · exact (C7_store_failures_swallowed [] "u" "p" "c" []
      ⟨⟨"createProduct"⟩, ⟨"", "", []⟩, none⟩).1
  · exact (C7_store_failures_swallowed [] "u" "p" "c" []
      ⟨⟨"createProduct"⟩, ⟨"", "", []⟩, none⟩).2.2.2.2.2.2 false "unauthorized"
      (by decide)

/-- C9: `updateProduct` on an input whose every attribute is `id` builds an
empty merge-patch, so when an item with that key is stored the update is a
no-op: the store is left exactly unchanged and the call completes
successfully, returning the input. -/
theorem C9_noop_update (st : Store) (input : AttrMap)
    (hall : ∀ p ∈ input, p.1 = "id")
    (hmem : st.any (fun it => keyMatches it (lookupAttr input "id")) = true) :
    updateProduct st false input
      = (RVal.obj input, st, [StoreCall.upd (lookupAttr input "id") []]) := by
  have hpatch : input.filter (fun p => ! decide (p.1 = "id")) = [] := by
    rw [List.filter_eq_nil_iff]
    intro p hp
    simp [hall p hp]
  have hid : ∀ it : AttrMap,
      (if keyMatches it (lookupAttr input "id") = true
       then applyPatch it [] else it) = it := by
    intro it
    unfold applyPatch
    simp
  have hupd : updateItem st (lookupAttr input "id") [] = st := by
    unfold updateItem
    rw [if_pos hmem]
    simp [hid]
  simp [updateProduct, hpatch, hupd]

/-- C9 witness: updating `{id:"1"}` in a store holding `{id:"1", name:"A"}`
leaves the store unchanged and returns the input. -/
theorem C9_noop_update_witness :
    updateProduct [[("id", Val.str "1"), ("name", Val.str "A")]] false
      [("id", Val.str "1")]
      = (RVal.obj [("id", Val.str "1")],
         [[("id", Val.str "1"), ("name", Val.str "A")]],
         [StoreCall.upd (some (Val.str "1")) []]) := by
  have h := C9_noop_update [[("id", Val.str "1"), ("name", Val.str "A")]]
    [("id", Val.str "1")] (by decide) (by decide)
  simpa using h

/-- The group-claims collection the guard consults: the `cognito:groups`
entry of the caller's claims, absent when there is no identity. -/
def groupsOf (event : AppSyncEvent) : Option (List String) :=
  match event.identity with
  | some ident => lookupClaim ident.claims "cognito:groups"
  | none => none

/-- C10: the guard's verdict is a function of the claim entry keyed by the
literal string `cognito:groups` alone, and an identity carrying `Admin`
only under some other claim key is still rejected for every mutation. -/
theorem C10_only_cognito_groups (event : AppSyncEvent) (gn : String) :
    checkForGroup event gn
      = (match groupsOf event with
         | some groups => groups.contains gn
         | none => false)
    ∧ (∀ (st : Store) (fail : Bool) (freshId : String) (ident : Identity),
        event.info.fieldName ∈ mutationOps →
        event.identity = some ident →
        lookupClaim ident.claims "cognito:groups" = none →
        handler st fail freshId event = ⟨DResult.error "unauthorized", st, []⟩) := by
  constructor
  · obtain ⟨einfo, eargs, eident⟩ := event
    cases eident with
    | none => rfl
    | some ident =>
      cases hc : lookupClaim ident.claims "cognito:groups" with
      | none => simp [checkForGroup, groupsOf, hc]
      | some groups =>
        cases hgc : groups.contains gn <;> simp [checkForGroup, groupsOf, hc, hgc]
  · intro st fail freshId ident hm hid hc
    exact handler_mutation_unauthorized st fail freshId event hm
      (checkForGroup_no_claim event "Admin" ident hid hc)

/-- C10 witness: an identity whose claims list `Admin` only under the key
`custom:roles` is rejected when dispatching `createProduct`. -/
theorem C10_only_cognito_groups_witness :
    handler [] false "u"
      ⟨⟨"createProduct"⟩, ⟨"", "", [("name", Val.str "S")]⟩,
        some ⟨"u", [("custom:roles", ["Admin"])]⟩⟩
      = ⟨DResult.error "unauthorized", [], []⟩ :=
  (C10_only_cognito_groups
      ⟨⟨"createProduct"⟩, ⟨"", "", [("name", Val.str "S")]⟩,
        some ⟨"u", [("custom:roles", ["Admin"])]⟩⟩ "Admin").2 [] false "u"
    ⟨"u", [("custom:roles", ["Admin"])]⟩ (by decide) rfl (by decide)

end CdkProducts
